import Mathlib

/-!
Shallow embedding of the `ipsubmap` program (`main.go`): the
resolution–classification–aggregation engine.  Go maps
(`map[string][]string`) are modelled as association lists with unique
keys; the nondeterministic iteration order of `for k := range m` is
modelled by passing the list of iterated keys as an explicit parameter,
which theorems constrain to be a permutation of the map's keys.
`io.Writer` sinks are modelled as functions from (write index, written
string) to an optional error, and `net.LookupIP` as an explicit
environment function from hostname to either an error or a list of IPs.
An IP (`net.IP`, a byte slice) is a list of byte values.
-/

namespace Ipsubmap

/-! ### Go string comparison

Go compares strings byte-wise (lexicographic over UTF-8 bytes), which
coincides with lexicographic comparison of unicode code points; `charsLe`
is that comparison over the characters of the two strings. -/

def charsLe : List Char → List Char → Bool
  | [], _ => true
  | x :: xs, ys =>
    match ys with
    | [] => false
    | y :: tl => if x = y then charsLe xs tl else decide (x < y)

def strLe (a b : String) : Prop := charsLe a.data b.data = true

instance strLe.decRel : DecidableRel strLe := fun a b =>
  instDecidableEqBool (charsLe a.data b.data) true

theorem charsLe_total : ∀ as bs : List Char, charsLe as bs = true ∨ charsLe bs as = true
  | [], _ => Or.inl rfl
  | _ :: _, [] => Or.inr rfl
  | a :: as, b :: bs => by
    by_cases hab : a = b
    · subst hab
      simpa [charsLe] using charsLe_total as bs
    · rcases lt_trichotomy a b with h | h | h
      · left; simp [charsLe, hab, h]
      · exact absurd h hab
      · right; simp [charsLe, Ne.symm hab, h]

theorem charsLe_trans : ∀ as bs cs : List Char,
    charsLe as bs = true → charsLe bs cs = true → charsLe as cs = true
  | [], _, _, _, _ => rfl
  | a :: as, [], cs, h, _ => by simp [charsLe] at h
  | a :: as, b :: bs, [], _, h => by simp [charsLe] at h
  | a :: as, b :: bs, c :: cs, h1, h2 => by
    by_cases hab : a = b <;> by_cases hbc : b = c
    · subst hab; subst hbc
      simp only [charsLe, if_pos rfl] at h1 h2 ⊢
      exact charsLe_trans as bs cs h1 h2
    · subst hab
      simp only [charsLe] at h2 ⊢
      rw [if_neg hbc] at h2
      rw [if_neg hbc]
      exact h2
    · subst hbc
      simp only [charsLe] at h1 ⊢
      rw [if_neg hab] at h1
      rw [if_neg hab]
      exact h1
    · simp only [charsLe, if_neg hab] at h1
      simp only [charsLe, if_neg hbc] at h2
      have hac : a < c := lt_trans (of_decide_eq_true h1) (of_decide_eq_true h2)
      have hane : a ≠ c := ne_of_lt hac
      simp [charsLe, hane, hac]

theorem charsLe_antisymm : ∀ as bs : List Char,
    charsLe as bs = true → charsLe bs as = true → as = bs
  | [], [], _, _ => rfl
  | [], _ :: _, _, h => by simp [charsLe] at h
  | _ :: _, [], h, _ => by simp [charsLe] at h
  | a :: as, b :: bs, h1, h2 => by
    by_cases hab : a = b
    · subst hab
      simp only [charsLe, if_pos rfl] at h1 h2
      rw [charsLe_antisymm as bs h1 h2]
    · simp only [charsLe, if_neg hab] at h1
      simp only [charsLe, if_neg (Ne.symm hab)] at h2
      exact absurd (lt_trans (of_decide_eq_true h1) (of_decide_eq_true h2)) (lt_irrefl a)

instance strLe.isTotal : IsTotal String strLe :=
  ⟨fun a b => charsLe_total a.data b.data⟩

instance strLe.isTrans : IsTrans String strLe :=
  ⟨fun a b c => charsLe_trans a.data b.data c.data⟩

instance strLe.isAntisymm : IsAntisymm String strLe :=
  ⟨fun a b h1 h2 => by
    cases a with
    | mk da => cases b with
      | mk db => exact congrArg String.mk (charsLe_antisymm da db h1 h2)⟩

/-! ### The accumulated map: `map[string][]string` as an association list -/

def mapLookup (m : List (String × List String)) (k : String) : List String :=
  match m.find? (fun p => p.1 == k) with
  | some p => p.2
  | none => []

/-- Models `f.m[ip] = append(f.m[ip], subdomain)`: extends the list at key
`k` (appending at the end), adding the key at the back if absent. -/
def mapInsert (m : List (String × List String)) (k v : String) :
    List (String × List String) :=
  match m with
  | [] => [(k, [v])]
  | (k', vs) :: rest =>
    if k' == k then (k', vs ++ [v]) :: rest else (k', vs) :: mapInsert rest k v

def mapKeys (m : List (String × List String)) : List String := m.map Prod.fst

/-- Models `strings.Join(xs, ",")`. -/
def joinComma : List String → String
  | [] => ""
  | [s] => s
  | s :: rest => s ++ "," ++ joinComma rest

/-! ### Sinks and fragments -/

/-- Model of an `io.Writer`: given the index of the write call and the
string written, returns `none` on success or `some e` when that call
fails with error `e`. -/
def Sink : Type := Nat → String → Option String

/-- The write loop of `fragment.write`: writes the given strings in
order, stopping at the first failing write, returning the list of
strings successfully written and the error of the failing write. -/
def writeLines (sink : Sink) (idx : Nat) : List String → List String × Option String
  | [] => ([], none)
  | l :: rest =>
    match sink idx l with
    | some e => ([], some e)
    | none =>
      let r := writeLines sink (idx + 1) rest
      (l :: r.1, r.2)

/-- Model of `fragment`: `out io.Writer` and `m map[string][]string`,
either of which may be `nil`. -/
structure Fragment where
  out : Option Sink
  m : Option (List (String × List String))

/-- `fragment.append`: no-op when the map is `nil`. -/
def Fragment.append (f : Fragment) (ip subdomain : String) : Fragment :=
  match f.m with
  | none => f
  | some mm => { f with m := some (mapInsert mm ip subdomain) }

/-- The lines `fragment.write` emits given the keys in iteration order:
sort the keys (Go `sort.Strings`, byte-wise string order) and render one
line `<ip> <host1>,<host2>,...\n` per key. -/
def lineList (mm : List (String × List String)) (keys : List String) : List String :=
  (List.insertionSort strLe keys).map
    (fun k => k ++ " " ++ joinComma (mapLookup mm k) ++ "\n")

/-- `fragment.write`: no-op success when `f.m` or `f.out` is `nil`;
otherwise collects the keys (in map iteration order `iter`), sorts them
and writes one line per key, stopping at the first write error.  Returns
the successfully written strings and the error. -/
def Fragment.write (f : Fragment) (iter : List String) : List String × Option String :=
  match f.m, f.out with
  | none, _ => ([], none)
  | some _, none => ([], none)
  | some mm, some sink => writeLines sink 0 (lineList mm iter)

/-! ### `net.IP`: a byte slice of length 4 or 16 (bytes are values < 256) -/

/-- `IP.To4`: the 4-byte form when the address is IPv4 (4 bytes, or a
16-byte IPv4-mapped address `::ffff:a.b.c.d`), else `none` (Go `nil`). -/
def IP.to4 (ip : List Nat) : Option (List Nat) :=
  if ip.length == 4 then some ip
  else if ip.length == 16 && (ip.take 10).all (fun b => b == 0)
      && (ip.getD 10 0 == 255) && (ip.getD 11 0 == 255) then some (ip.drop 12)
  else none

/-- `IP.IsLoopback`: first byte 127 for IPv4, else equality with `::1`. -/
def IP.isLoopback (ip : List Nat) : Bool :=
  match IP.to4 ip with
  | some ip4 => ip4.getD 0 0 == 127
  | none => ip == [0, 0, 0, 0, 0, 0, 0, 0, 0, 0, 0, 0, 0, 0, 0, 1]

/-- `IP.IsPrivate`: 10/8, 172.16/12 or 192.168/16 for IPv4, else the
IPv6 unique-local range `fc00::/7`. -/
def IP.isPrivate (ip : List Nat) : Bool :=
  match IP.to4 ip with
  | some ip4 =>
    ip4.getD 0 0 == 10
      || (ip4.getD 0 0 == 172 && (ip4.getD 1 0 &&& 0xf0) == 16)
      || (ip4.getD 0 0 == 192 && ip4.getD 1 0 == 168)
  | none => ip.length == 16 && (ip.getD 0 0 &&& 0xfe) == 0xfc

/-- The digit table is Go's `hexDigit` string constant. -/
def hexDigit (n : Nat) : Char := "0123456789abcdef".data.getD n '0'

/-- Go `hexString`: two lowercase hex digits per byte. -/
def hexString (bytes : List Nat) : String :=
  String.mk (bytes.foldr
    (fun b acc => hexDigit (b / 16 % 16) :: hexDigit (b % 16) :: acc) [])

/-- Go `appendHex` on a 16-bit group: lowercase hex without leading
zeros, `"0"` for zero. -/
def appendHex (i : Nat) : String :=
  if i == 0 then "0"
  else String.mk (([3, 2, 1, 0]).filterMap (fun j =>
    let v := i >>> (j * 4)
    if v > 0 then some (hexDigit (v % 16)) else none))

/-- The 16-bit groups of a 16-byte IPv6 address. -/
def groupsOf : List Nat → List Nat
  | a :: b :: rest => (a * 256 + b) :: groupsOf rest
  | _ => []

/-- Maximal runs of zero groups, as (start index, length) pairs in order. -/
def zeroRuns : List Nat → Nat → List (Nat × Nat)
  | [], _ => []
  | 0 :: rest, i =>
    match zeroRuns rest (i + 1) with
    | (s, l) :: rs => if s == i + 1 then (i, l + 1) :: rs else (i, 1) :: (s, l) :: rs
    | [] => [(i, 1)]
  | _ :: rest, i => zeroRuns rest (i + 1)

/-- The zero run Go's IPv6 rendering elides: the first run of maximal
length (a later run replaces the current best only when strictly
longer), and only when its length is at least two groups. -/
def bestRun (gs : List Nat) : Option (Nat × Nat) :=
  match (zeroRuns gs 0).foldl
      (fun acc r => match acc with
        | none => some r
        | some b => if r.2 > b.2 then some r else some b) none with
  | some (s, l) => if 2 ≤ l then some (s, l) else none
  | none => none

/-- Go's IPv6 textual form: hex groups joined by `:`, with the elided
zero run rendered as `::`. -/
def ipv6String (bytes : List Nat) : String :=
  let gs := groupsOf bytes
  match bestRun gs with
  | some (s, l) =>
    String.intercalate ":" ((gs.take s).map appendHex) ++ "::" ++
      String.intercalate ":" ((gs.drop (s + l)).map appendHex)
  | none => String.intercalate ":" (gs.map appendHex)

/-- `IP.String`: dotted decimal when `To4` succeeds (so also for
IPv4-mapped IPv6 addresses), the compressed hex form for 16-byte IPv6
addresses, `"<nil>"` for the empty slice and `"?"`-prefixed hex for
invalid lengths. -/
def IP.string (ip : List Nat) : String :=
  if ip.length == 0 then "<nil>"
  else match IP.to4 ip with
  | some ip4 =>
    Nat.repr (ip4.getD 0 0) ++ "." ++ Nat.repr (ip4.getD 1 0) ++ "." ++
      Nat.repr (ip4.getD 2 0) ++ "." ++ Nat.repr (ip4.getD 3 0)
  | none =>
    if ip.length != 16 then "?" ++ hexString ip
    else ipv6String ip

/-! ### The engine: `ipSubMap` -/

structure ipSubMap where
  «private» : Fragment
  public : Fragment
  loopback : Fragment
  ipv4 : Bool
  ipv6 : Bool

/-- Models `fmt`'s `%q` for hostname strings containing no characters
that need escaping. -/
def goQuote (s : String) : String := "\"" ++ s ++ "\""

/-- The body of the loop over resolved addresses in `ipSubMap.resolve`:
skip the address when its IP version is filtered out, otherwise append
`(ip.String(), subdomain)` to the loopback report if the address is
loopback, else to the private report if it is private, else to the
public report. -/
def ipSubMap.resolveStep (m : ipSubMap) (subdomain : String) (ip : List Nat) : ipSubMap :=
  if (IP.to4 ip).isNone && !m.ipv6 then m
  else if (IP.to4 ip).isSome && !m.ipv4 then m
  else
    let ipStr := IP.string ip
    if IP.isLoopback ip then { m with loopback := m.loopback.append ipStr subdomain }
    else if IP.isPrivate ip then { m with «private» := m.«private».append ipStr subdomain }
    else { m with public := m.public.append ipStr subdomain }

/-- The resolution environment modelling `net.LookupIP`. -/
def Lookup : Type := String → Except String (List (List Nat))

/-- `ipSubMap.resolve`: on lookup failure returns the unchanged engine
and the error `failed to resolve subdomain "h": cause`; on success folds
`resolveStep` over the returned addresses and returns no error. -/
def ipSubMap.resolve (m : ipSubMap) (lookup : Lookup) (subdomain : String) :
    ipSubMap × Option String :=
  match lookup subdomain with
  | .error e =>
    (m, some ("failed to resolve subdomain " ++ goQuote subdomain ++ ": " ++ e))
  | .ok ips => (ips.foldl (fun acc ip => acc.resolveStep subdomain ip) m, none)

/-- The input stream as seen through `bufio.Scanner`: the lines the
scanner yields, then `scanner.Err()` (`none` when the stream was read to
the end without an I/O failure). -/
structure InStream where
  lines : List String
  readErr : Option String

/-- The error value `ipSubMap.enumerate` returns (when not `none`):
either the input-read failure (`fmt.Errorf("failed to read input: %v")`),
or the `errors.Join` of the collected per-hostname resolution errors. -/
inductive EnumErr where
  | readFail (msg : String)
  | resolution (msgs : List String)
deriving DecidableEq

def EnumErr.messages : EnumErr → List String
  | .readFail e => [e]
  | .resolution es => es

/-- The body of the scanner loop in `ipSubMap.enumerate`: skip empty
lines, otherwise resolve the line and collect the error, if any. -/
def ipSubMap.enumStep (lookup : Lookup) (acc : ipSubMap × List String) (line : String) :
    ipSubMap × List String :=
  if line == "" then acc
  else
    match acc.1.resolve lookup line with
    | (m', none) => (m', acc.2)
    | (m', some e) => (m', acc.2 ++ [e])

/-- `ipSubMap.enumerate`: scan the input lines, resolving each non-empty
line and collecting resolution errors; afterwards, if `scanner.Err()` is
set, return the read failure (alone), else the joined resolution errors
(`none` when there were none). -/
def ipSubMap.enumerate (m : ipSubMap) (lookup : Lookup) (inp : InStream) :
    ipSubMap × Option EnumErr :=
  let st := inp.lines.foldl (ipSubMap.enumStep lookup) (m, [])
  match inp.readErr with
  | some e => (st.1, some (.readFail ("failed to read input: " ++ e)))
  | none => (st.1, if st.2.isEmpty then none else some (.resolution st.2))

def tagErr (tag : String) : Option String → List String
  | none => []
  | some e => [tag ++ e]

/-- `ipSubMap.write`: serialize the private, public and loopback reports
in turn (each with its own map iteration order), tagging each failure
with its scope name and joining all failures.  Returns the per-report
written output and the combined error list (empty models a `nil` joined
error). -/
def ipSubMap.write (m : ipSubMap) (itPriv itPub itLoop : List String) :
    (List String × List String × List String) × List String :=
  let p := m.«private».write itPriv
  let q := m.public.write itPub
  let r := m.loopback.write itLoop
  ((p.1, q.1, r.1),
    tagErr "failed to write private ip subdomains: " p.2 ++
      tagErr "failed to write public ip subdomains: " q.2 ++
      tagErr "failed to write loopback ip subdomains: " r.2)

/-! ### Line splitting: `bufio.ScanLines` on a fully available stream -/

/-- Finish one scanned token (accumulated in reverse): `dropCR` removes
one trailing carriage return. -/
def finishLine (racc : List Char) : String :=
  match racc with
  | '\r' :: rest => String.mk rest.reverse
  | _ => String.mk racc.reverse

/-- The tokens `bufio.ScanLines` yields: split at each newline, drop one
trailing `\r` per line, and yield a final unterminated line only when it
is nonempty. -/
def splitLinesAux : List Char → List Char → List String
  | [], racc => if racc.isEmpty then [] else [finishLine racc]
  | '\n' :: rest, racc => finishLine racc :: splitLinesAux rest []
  | c :: rest, racc => splitLinesAux rest (c :: racc)

def splitLines (s : String) : List String := splitLinesAux s.data []

/-! ### Concrete instances used by the examples -/

/-- A sink on which every write succeeds. -/
def okSink : Sink := fun _ _ => none

/-- A sink that accepts its first write and fails on every later one. -/
def sink1 : Sink := fun i _ => if i == 0 then none else some "disk full"

/-- The accumulation of the serialization example, in insertion order. -/
def exMap : List (String × List String) := [("2.2.2.2", ["a"]), ("1.1.1.1", ["a", "b"])]

/-- An engine with all three reports enabled (empty maps, no sinks) and
both IP versions included. -/
def m0 : ipSubMap :=
  ⟨⟨none, some []⟩, ⟨none, some []⟩, ⟨none, some []⟩, true, true⟩

/-- The resolution environment of the partial-failure example. -/
def exLookup : Lookup := fun h =>
  if h == "good.example" then .ok [[1, 1, 1, 1]]
  else if h == "good2.example" then .ok [[2, 2, 2, 2]]
  else .error "no such host"

/-- A resolution environment in which every lookup fails. -/
def lookupBad : Lookup := fun _ => .error "nx"

/-- A resolution environment returning one IPv4 address (1.2.3.4) and
one IPv6 address (2001:db8::1) for every hostname. -/
def lookup46 : Lookup := fun _ =>
  .ok [[1, 2, 3, 4], [32, 1, 13, 184, 0, 0, 0, 0, 0, 0, 0, 0, 0, 0, 0, 1]]

/-- The IPv4-mapped IPv6 address `::ffff:192.0.2.1`. -/
def mip : List Nat := [0, 0, 0, 0, 0, 0, 0, 0, 0, 0, 255, 255, 192, 0, 2, 1]

/-! ### Helper lemmas -/

theorem insertionSort_eq_of_perm {l1 l2 : List String} (h : l1.Perm l2) :
    List.insertionSort strLe l1 = List.insertionSort strLe l2 :=
  List.eq_of_perm_of_sorted
    ((List.perm_insertionSort strLe l1).trans
      (h.trans (List.perm_insertionSort strLe l2).symm))
    (List.sorted_insertionSort strLe l1)
    (List.sorted_insertionSort strLe l2)

theorem lineList_eq_of_perm (mm : List (String × List String)) {l1 l2 : List String}
    (h : l1.Perm l2) : lineList mm l1 = lineList mm l2 := by
  unfold lineList
  rw [insertionSort_eq_of_perm h]

theorem writeLines_ok (sink : Sink) (hok : ∀ i s, sink i s = none) :
    ∀ (ls : List String) (idx : Nat), writeLines sink idx ls = (ls, none) := by
  intro ls
  induction ls with
  | nil => intro idx; rfl
  | cons l rest ih =>
    intro idx
    simp [writeLines, hok, ih]

theorem writeLines_abort (sink : Sink) (n : Nat) (e : String)
    (hok : ∀ i s, i < n → sink i s = none) (hfail : ∀ s, sink n s = some e) :
    ∀ (ls : List String) (idx : Nat), idx ≤ n → n - idx < ls.length →
      writeLines sink idx ls = (ls.take (n - idx), some e) := by
  intro ls
  induction ls with
  | nil =>
    intro idx _ hlt
    simp at hlt
  | cons l rest ih =>
    intro idx hle hlt
    by_cases hi : idx = n
    · subst hi
      simp [writeLines, hfail l, Nat.sub_self]
    · have hlt2 : idx < n := lt_of_le_of_ne hle hi
      have hrec : writeLines sink (idx + 1) rest = (rest.take (n - (idx + 1)), some e) := by
        apply ih
        · omega
        · simp only [List.length_cons] at hlt
          omega
      have hstep : n - idx = (n - (idx + 1)) + 1 := by omega
      simp only [writeLines, hok idx l hlt2, hrec, hstep, List.take_succ_cons]

/-- The error component of `resolve` depends only on the lookup result. -/
def errOf (lookup : Lookup) (h : String) : Option String :=
  match lookup h with
  | .error e => some ("failed to resolve subdomain " ++ goQuote h ++ ": " ++ e)
  | .ok _ => none

theorem resolve_snd (m : ipSubMap) (lookup : Lookup) (h : String) :
    (m.resolve lookup h).2 = errOf lookup h := by
  unfold ipSubMap.resolve errOf
  cases lookup h <;> rfl

theorem enumStep_eq (lookup : Lookup) (m : ipSubMap) (errs : List String) (line : String) :
    ipSubMap.enumStep lookup (m, errs) line =
      if line == "" then (m, errs)
      else ((m.resolve lookup line).1, errs ++ (errOf lookup line).toList) := by
  unfold ipSubMap.enumStep
  by_cases h : line == ""
  · simp [h]
  · simp only [h, Bool.false_eq_true, if_false]
    have h2 := resolve_snd m lookup line
    rcases hres : m.resolve lookup line with ⟨m', eo⟩
    rw [hres] at h2
    cases eo with
    | none =>
      simp only at h2
      simp [← h2]
    | some e =>
      simp only at h2
      simp [← h2]

theorem enum_foldl (lookup : Lookup) :
    ∀ (lines : List String) (m : ipSubMap) (errs0 : List String),
      lines.foldl (ipSubMap.enumStep lookup) (m, errs0) =
        ((lines.filter (fun l => !(l == ""))).foldl
            (fun acc h => (acc.resolve lookup h).1) m,
          errs0 ++ (lines.filter (fun l => !(l == ""))).filterMap (errOf lookup)) := by
  intro lines
  induction lines with
  | nil => intro m errs0; simp
  | cons line rest ih =>
    intro m errs0
    by_cases hl : line == ""
    · simp only [List.foldl_cons, enumStep_eq, hl, if_true, List.filter_cons, Bool.not_eq_true]
      simp only [hl, Bool.not_true, Bool.false_eq_true, if_false]
      exact ih m errs0
    · simp only [List.foldl_cons, enumStep_eq, hl, Bool.false_eq_true, if_false,
        List.filter_cons]
      simp only [hl, Bool.not_false, if_true]
      rw [ih]
      rw [List.filterMap_cons]
      cases errOf lookup line <;> simp [List.append_assoc]

theorem filter_ne_idem (lines : List String) :
    (lines.filter (fun l => !(l == ""))).filter (fun l => !(l == "")) =
      lines.filter (fun l => !(l == "")) := by
  induction lines with
  | nil => rfl
  | cons a as ih => by_cases h : a == "" <;> simp [List.filter_cons, h, ih]

theorem resolveStep_flags (m : ipSubMap) (sub : String) (ip : List Nat) :
    (m.resolveStep sub ip).ipv4 = m.ipv4 ∧ (m.resolveStep sub ip).ipv6 = m.ipv6 := by
  unfold ipSubMap.resolveStep
  split_ifs <;> exact ⟨rfl, rfl⟩

theorem resolveStep_skip_v4 (m : ipSubMap) (sub : String) (ip : List Nat)
    (ht : (IP.to4 ip).isSome = true) (h4 : m.ipv4 = false) :
    m.resolveStep sub ip = m := by
  have h1 : ((IP.to4 ip).isNone && !m.ipv6) = false := by
    cases htt : IP.to4 ip with
    | none => rw [htt] at ht; simp at ht
    | some _ => simp
  have h2 : ((IP.to4 ip).isSome && !m.ipv4) = true := by simp [ht, h4]
  simp [ipSubMap.resolveStep, h1, h2]

theorem resolveStep_skip_v6 (m : ipSubMap) (sub : String) (ip : List Nat)
    (ht : IP.to4 ip = none) (h6 : m.ipv6 = false) :
    m.resolveStep sub ip = m := by
  have h1 : ((IP.to4 ip).isNone && !m.ipv6) = true := by simp [ht, h6]
  simp [ipSubMap.resolveStep, h1]

/-! ### The claims -/

/-- C1: with a configured sink (accepting all writes) and map,
`fragment.write` collects the keys, sorts them byte-wise
lexicographically as strings, and writes exactly one line
`<ip> <host1>,<host2>,...\n` per key in that sorted order, with the
hostnames comma-joined in per-IP insertion order; for the accumulation
2.2.2.2 ↦ [a], 1.1.1.1 ↦ [a,b] the output is exactly
"1.1.1.1 a,b\n2.2.2.2 a\n" (under either map iteration order), and
"10.0.0.2" sorts before "2.2.2.2". -/
theorem C1_write_sorted_lines :
    (∀ (mm : List (String × List String)) (sink : Sink) (iter : List String),
      iter.Perm (mapKeys mm) → (∀ i s, sink i s = none) → (mapKeys mm).Nodup →
      Fragment.write ⟨some sink, some mm⟩ iter =
        ((List.insertionSort strLe (mapKeys mm)).map
          (fun k => k ++ " " ++ joinComma (mapLookup mm k) ++ "\n"), none)
      ∧ (List.insertionSort strLe (mapKeys mm)).Nodup)
  ∧ String.join (Fragment.write ⟨some okSink, some exMap⟩ ["2.2.2.2", "1.1.1.1"]).1
      = "1.1.1.1 a,b\n2.2.2.2 a\n"
  ∧ String.join (Fragment.write ⟨some okSink, some exMap⟩ ["1.1.1.1", "2.2.2.2"]).1
      = "1.1.1.1 a,b\n2.2.2.2 a\n"
  ∧ List.insertionSort strLe ["2.2.2.2", "10.0.0.2"] = ["10.0.0.2", "2.2.2.2"] := by
  refine ⟨?_, by decide, by decide, by decide⟩
  intro mm sink iter hperm hok hnodup
  constructor
  · show writeLines sink 0 (lineList mm iter) = _
    rw [lineList_eq_of_perm mm hperm, writeLines_ok sink hok]
    rfl
  · exact (List.perm_insertionSort strLe (mapKeys mm)).symm.nodup hnodup

/-- C1 witness: the general part of C1 applied to the example
accumulation with iteration order [2.2.2.2, 1.1.1.1]. -/
theorem C1_witness :
    Fragment.write ⟨some okSink, some exMap⟩ ["2.2.2.2", "1.1.1.1"] =
      (["1.1.1.1 a,b\n", "2.2.2.2 a\n"], none)
  ∧ (List.insertionSort strLe (mapKeys exMap)).Nodup :=
  have h := C1_write_sorted_lines.1 exMap okSink ["2.2.2.2", "1.1.1.1"]
    (by decide) (fun _ _ => rfl) (by decide)
  ⟨h.1.trans (by decide), h.2⟩

/-- C7: a report with no configured sink is inert: `append` leaves it
unchanged (nothing is materialized) and `write` is a no-op success; a
report with a sink but an empty accumulation writes nothing and returns
no error. -/
theorem C7_inert_reports :
    (∀ ip sub, Fragment.append ⟨none, none⟩ ip sub = ⟨none, none⟩)
  ∧ (∀ iter, Fragment.write ⟨none, none⟩ iter = ([], none))
  ∧ (∀ (sink : Sink), Fragment.write ⟨some sink, some []⟩ [] = ([], none)) :=
  ⟨fun _ _ => rfl, fun _ => rfl, fun _ => rfl⟩

/-- C9: serialization is deterministic: for a fixed accumulated map, the
result of `fragment.write` does not depend on the (nondeterministic)
iteration order of the map's keys, so repeated invocations produce
byte-identical output. -/
theorem C9_serialize_deterministic (f : Fragment) (mm : List (String × List String))
    (iter1 iter2 : List String) (hm : f.m = some mm)
    (h1 : iter1.Perm (mapKeys mm)) (h2 : iter2.Perm (mapKeys mm)) :
    f.write iter1 = f.write iter2 := by
  rcases f with ⟨out, fm⟩
  simp only at hm
  subst hm
  cases out with
  | none => rfl
  | some sink =>
    show writeLines sink 0 (lineList mm iter1) = writeLines sink 0 (lineList mm iter2)
    rw [lineList_eq_of_perm mm (h1.trans h2.symm)]

/-- C9 witness: determinism on the example accumulation under the two
possible map iteration orders. -/
theorem C9_witness :
    Fragment.write ⟨some okSink, some exMap⟩ ["2.2.2.2", "1.1.1.1"] =
      Fragment.write ⟨some okSink, some exMap⟩ ["1.1.1.1", "2.2.2.2"] :=
  C9_serialize_deterministic ⟨some okSink, some exMap⟩ exMap
    ["2.2.2.2", "1.1.1.1"] ["1.1.1.1", "2.2.2.2"] rfl (by decide) (by decide)

/-- C6: a write failure at line `n` of one report's serialization writes
exactly the first `n` lines of that report (aborting the remainder of
that report only); each report's output is that of its own fragment
independently of the others; and when both the private and the public
serializations fail, both errors appear, tagged with their scope names,
in the combined error of `ipSubMap.write` (no short-circuit). -/
theorem C6_write_failure_isolation :
    (∀ (sink : Sink) (mm : List (String × List String)) (iter : List String) (n : Nat)
        (e : String),
      (∀ i s, i < n → sink i s = none) → (∀ s, sink n s = some e) →
      n < (lineList mm iter).length →
      Fragment.write ⟨some sink, some mm⟩ iter = ((lineList mm iter).take n, some e))
  ∧ (∀ (m : ipSubMap) (it1 it2 it3 : List String),
      (m.write it1 it2 it3).1 =
        ((m.«private».write it1).1, (m.public.write it2).1, (m.loopback.write it3).1))
  ∧ (∀ (m : ipSubMap) (it1 it2 it3 : List String) (e1 e2 : String),
      (m.«private».write it1).2 = some e1 →
      (m.public.write it2).2 = some e2 →
      ("failed to write private ip subdomains: " ++ e1) ∈ (m.write it1 it2 it3).2
      ∧ ("failed to write public ip subdomains: " ++ e2) ∈ (m.write it1 it2 it3).2) := by
  refine ⟨?_, fun m it1 it2 it3 => rfl, ?_⟩
  · intro sink mm iter n e hok hfail hlen
    show writeLines sink 0 (lineList mm iter) = _
    have h := writeLines_abort sink n e hok hfail (lineList mm iter) 0 (Nat.zero_le n)
      (by simpa using hlen)
    simpa using h
  · intro m it1 it2 it3 e1 e2 h1 h2
    constructor <;> simp [ipSubMap.write, tagErr, h1, h2]

/-- C6 witness: a sink accepting exactly one write makes the example
report emit its first sorted line only, surfacing the write error. -/
theorem C6_witness :
    Fragment.write ⟨some sink1, some exMap⟩ ["2.2.2.2", "1.1.1.1"] =
      (["1.1.1.1 a,b\n"], some "disk full") :=
  have h := C6_write_failure_isolation.1 sink1 exMap ["2.2.2.2", "1.1.1.1"] 1 "disk full"
    (fun i s hi => by
      have hz : i = 0 := by omega
      subst hz
      rfl)
    (fun _ => rfl) (by decide)
  h.trans (by decide)

/-- C3: every resolved address passing the IP-version filter goes to
exactly one scope bucket, loopback checked first, then private, else
public: a loopback address is appended only to the loopback report
(whatever `IsPrivate` would say), a private non-loopback address only to
the private report, and any other address only to the public report. -/
theorem C3_scope_precedence (m : ipSubMap) (sub : String) (ip : List Nat)
    (h6 : IP.to4 ip = none → m.ipv6 = true)
    (h4 : (IP.to4 ip).isSome = true → m.ipv4 = true) :
    (IP.isLoopback ip = true →
      m.resolveStep sub ip = { m with loopback := m.loopback.append (IP.string ip) sub })
  ∧ (IP.isLoopback ip = false → IP.isPrivate ip = true →
      m.resolveStep sub ip = { m with «private» := m.«private».append (IP.string ip) sub })
  ∧ (IP.isLoopback ip = false → IP.isPrivate ip = false →
      m.resolveStep sub ip = { m with public := m.public.append (IP.string ip) sub }) := by
  have hskip1 : ((IP.to4 ip).isNone && !m.ipv6) = false := by
    cases ht : IP.to4 ip with
    | none => simp [h6 ht]
    | some v => simp
  have hskip2 : ((IP.to4 ip).isSome && !m.ipv4) = false := by
    cases ht : IP.to4 ip with
    | none => simp
    | some v => simp [h4 (by simp [ht])]
  refine ⟨fun hl => ?_, fun hl hp => ?_, fun hl hp => ?_⟩
  · simp [ipSubMap.resolveStep, hskip1, hskip2, hl]
  · simp [ipSubMap.resolveStep, hskip1, hskip2, hl, hp]
  · simp [ipSubMap.resolveStep, hskip1, hskip2, hl, hp]

/-- C3 witness: 127.0.0.1 (with both versions included) is appended to
the loopback report only. -/
theorem C3_witness :
    ipSubMap.resolveStep m0 "x" [127, 0, 0, 1] =
      { m0 with loopback := Fragment.append m0.loopback "127.0.0.1" "x" } :=
  have h := C3_scope_precedence m0 "x" [127, 0, 0, 1]
    (fun hc => absurd hc (by decide)) (fun _ => rfl)
  h.1 (by decide)

/-- C4: an IPv4 address (`To4` succeeds) is skipped entirely, with no
error, when include-v4 is false; an IPv6 address (`To4` fails) is
skipped when include-v6 is false; hence a hostname resolving to one v4
and one v6 address, with include-v4 true and include-v6 false, changes
the reports exactly as the v4 address alone would, and returns no
error. -/
theorem C4_version_filter :
    (∀ (m : ipSubMap) (sub : String) (ip : List Nat),
      (IP.to4 ip).isSome = true → m.ipv4 = false → m.resolveStep sub ip = m)
  ∧ (∀ (m : ipSubMap) (sub : String) (ip : List Nat),
      IP.to4 ip = none → m.ipv6 = false → m.resolveStep sub ip = m)
  ∧ (∀ (m : ipSubMap) (lookup : Lookup) (sub : String) (ip4 ip6 : List Nat),
      m.ipv4 = true → m.ipv6 = false →
      (IP.to4 ip4).isSome = true → IP.to4 ip6 = none →
      lookup sub = .ok [ip4, ip6] →
      m.resolve lookup sub = (m.resolveStep sub ip4, none)) := by
  refine ⟨resolveStep_skip_v4, resolveStep_skip_v6, ?_⟩
  intro m lookup sub ip4 ip6 h4 h6 ht4 ht6 hlk
  unfold ipSubMap.resolve
  rw [hlk]
  simp only [List.foldl_cons, List.foldl_nil]
  rw [resolveStep_skip_v6 (m.resolveStep sub ip4) sub ip6 ht6
    ((resolveStep_flags m sub ip4).2.trans h6)]

/-- C4 witness: with include-v6 false, a hostname resolving to 1.2.3.4
and 2001:db8::1 contributes only the v4 address. -/
theorem C4_witness :
    ipSubMap.resolve { m0 with ipv6 := false } lookup46 "h" =
      (ipSubMap.resolveStep { m0 with ipv6 := false } "h" [1, 2, 3, 4], none) :=
  C4_version_filter.2.2 { m0 with ipv6 := false } lookup46 "h"
    [1, 2, 3, 4] [32, 1, 13, 184, 0, 0, 0, 0, 0, 0, 0, 0, 0, 0, 0, 1]
    rfl rfl (by decide) (by decide) rfl

/-- C10: the version filter asks whether `To4` succeeds, not how the
record was returned: the IPv4-mapped address ::ffff:192.0.2.1 counts as
IPv4 — it is skipped whenever include-v4 is false (even with include-v6
true), kept whenever include-v4 is true (even with include-v6 false),
and recorded under its dotted-decimal key "192.0.2.1" (in the public
report, as it is neither loopback nor private). -/
theorem C10_v4_mapped (m : ipSubMap) (sub : String) :
    (IP.to4 mip).isSome = true
  ∧ IP.string mip = "192.0.2.1"
  ∧ (m.ipv4 = false → m.resolveStep sub mip = m)
  ∧ (m.ipv4 = true → m.resolveStep sub mip =
      { m with public := m.public.append "192.0.2.1" sub }) := by
  refine ⟨by decide, by decide, fun h => resolveStep_skip_v4 m sub mip (by decide) h, fun h => ?_⟩
  have h1 : ((IP.to4 mip).isNone && !m.ipv6) = false := by
    simp [show (IP.to4 mip).isNone = false by decide]
  have h2 : ((IP.to4 mip).isSome && !m.ipv4) = false := by simp [h]
  simp [ipSubMap.resolveStep, h1, h2, show IP.isLoopback mip = false by decide,
    show IP.isPrivate mip = false by decide, show IP.string mip = "192.0.2.1" by decide]

/-- C10 witness: with include-v4 false (and include-v6 true),
::ffff:192.0.2.1 is skipped. -/
theorem C10_witness :
    ipSubMap.resolveStep { m0 with ipv4 := false } "h" mip = { m0 with ipv4 := false } :=
  (C10_v4_mapped { m0 with ipv4 := false } "h").2.2.1 rfl

/-- C2 counterexample: with one failing hostname followed by an input
read failure, a resolution error is produced ("failed to resolve
subdomain \"bad\": nx"), yet `enumerate` returns only the read failure
and that resolution error appears nowhere in the returned error value —
it is discarded, contradicting the claim that every previously collected
resolution error is still surfaced. -/
theorem C2_counterexample :
    (m0.resolve lookupBad "bad").2 = some "failed to resolve subdomain \"bad\": nx"
  ∧ ipSubMap.enumerate m0 lookupBad ⟨["bad"], some "boom"⟩ =
      (m0, some (.readFail "failed to read input: boom"))
  ∧ "failed to resolve subdomain \"bad\": nx" ∉
      EnumErr.messages (.readFail "failed to read input: boom") :=
  ⟨rfl, rfl, by decide⟩

/-- C2 (amended): when the input stream fails to read partway through,
`enumerate` aborts remaining resolution and returns only the input-read
failure, tagged "failed to read input: " and distinct from resolution
errors; resolution errors collected before the read failure are
discarded, whatever they were. -/
theorem C2_read_failure_only (m : ipSubMap) (lookup : Lookup) (lines : List String)
    (e : String) :
    (ipSubMap.enumerate m lookup ⟨lines, some e⟩).2 =
      some (.readFail ("failed to read input: " ++ e)) :=
  rfl

/-- C5: `enumerate` (with a fully readable stream) resolves the
non-empty lines sequentially in input order, collecting every resolution
error in encounter order into the combined error (`none` when there were
none) while always continuing to the next hostname; a failing lookup
leaves the reports untouched and yields the error naming the hostname;
in the good/bad/good2 example both good hostnames appear in the public
report and the run's error names bad.invalid. -/
theorem C5_error_collection :
    (∀ (m : ipSubMap) (lookup : Lookup) (lines : List String),
      ipSubMap.enumerate m lookup ⟨lines, none⟩ =
        ((lines.filter (fun l => !(l == ""))).foldl
            (fun acc h => (acc.resolve lookup h).1) m,
          if ((lines.filter (fun l => !(l == ""))).filterMap (errOf lookup)).isEmpty
          then none
          else some (.resolution
            ((lines.filter (fun l => !(l == ""))).filterMap (errOf lookup)))))
  ∧ (∀ (m : ipSubMap) (lookup : Lookup) (h e : String),
      lookup h = .error e →
      m.resolve lookup h =
        (m, some ("failed to resolve subdomain " ++ goQuote h ++ ": " ++ e)))
  ∧ ((ipSubMap.enumerate m0 exLookup
        ⟨["good.example", "bad.invalid", "good2.example"], none⟩).1.public.m =
      some [("1.1.1.1", ["good.example"]), ("2.2.2.2", ["good2.example"])]
    ∧ (ipSubMap.enumerate m0 exLookup
        ⟨["good.example", "bad.invalid", "good2.example"], none⟩).2 =
      some (.resolution ["failed to resolve subdomain \"bad.invalid\": no such host"])) := by
  refine ⟨?_, ?_, by decide, by decide⟩
  · intro m lookup lines
    simp only [ipSubMap.enumerate, enum_foldl, List.nil_append]
  · intro m lookup h e hlk
    unfold ipSubMap.resolve
    rw [hlk]

/-- C5 witness: the failing lookup of the example leaves the engine
unchanged and returns the error naming bad.invalid. -/
theorem C5_witness :
    ipSubMap.resolve m0 exLookup "bad.invalid" =
      (m0, some "failed to resolve subdomain \"bad.invalid\": no such host") :=
  C5_error_collection.2.1 m0 exLookup "bad.invalid" "no such host" rfl

/-- C8: `enumerate` takes each non-empty scanned line exactly once in
order — running it on the scanned lines equals running it on those lines
with the blank ones removed (so blank lines contribute nothing and are
not errors) — and scanning performs no trimming beyond line-ending
removal (`\n`, with one trailing `\r` dropped): a line of only
whitespace survives as a hostname. -/
theorem C8_line_handling :
    (∀ (m : ipSubMap) (lookup : Lookup) (raw : String) (rerr : Option String),
      ipSubMap.enumerate m lookup ⟨splitLines raw, rerr⟩ =
        ipSubMap.enumerate m lookup ⟨(splitLines raw).filter (fun l => !(l == "")), rerr⟩)
  ∧ splitLines "a\r\nb\n\n \nc\n" = ["a", "b", "", " ", "c"]
  ∧ (splitLines "a\r\nb\n\n \nc\n").filter (fun l => !(l == "")) = ["a", "b", " ", "c"] := by
  refine ⟨?_, by decide, by decide⟩
  intro m lookup raw rerr
  simp only [ipSubMap.enumerate, enum_foldl, filter_ne_idem]

end Ipsubmap
